import Mathlib

set_option maxRecDepth 8000

set_option linter.dupNamespace false

/-! Shallow embedding of the CVE JSON 5.0 translation engine of the vulndb
repository (Go package `cve5`): the range normalizer
(`versionRangeToVersionRange`), the range recoverer (`convertVersions`,
`toVersionRange`, `toUnsupported`), the package-path resolution of
`affectedToModule`, and the record assembler (`FromReport`), together with
theorems checking the specification's claims about them. Go strings are
Lean `String`s, Go slices are Lean `List`s, nil pointers are `none`, and
the `(*T, bool)` / `(*T, error)` return shapes are `Option` / `Except`. -/

/-- Internal version range of a report: affected from `Introduced` (or the
dawn of history when empty) up to `Fixed` (or forever when empty). -/
structure report.VersionRange where
  Introduced : String := ""
  Fixed : String := ""
deriving DecidableEq

/-- Unsupported-version note emitted by the recoverer. Field `Ty` embeds the
Go field `Type`, which is a keyword in Lean. -/
structure report.UnsupportedVersion where
  Version : String := ""
  Ty : String := ""
deriving DecidableEq

/-- External (CVE JSON 5.0) version range. The Go `Version` and
`VersionStatus` string types are plain `String`s here. -/
structure cve5.VersionRange where
  Introduced : String := ""
  Fixed : String := ""
  LessThanOrEqual : String := ""
  Status : String := ""
  VersionType : String := ""
deriving DecidableEq

/-- Modelled from the spec: the `Affected`/`Unaffected` status constants of
the external schema (the schema declarations are not under src; the spec
names the two statuses Affected and Unaffected). -/
def StatusAffected : String := "affected"

/-- Modelled from the spec: the `Unaffected` status constant. -/
def StatusUnaffected : String := "unaffected"

def typeSemver : String := "semver"

def versionZero : String := "0"

/-- The `Fixed` field of the last element, `""` for the empty list
(embeds the Go access `versions[len(versions)-1].Fixed`). -/
def lastFixed : List report.VersionRange → String
  | [] => ""
  | [vr] => vr.Fixed
  | _ :: vr :: rest => lastFixed (vr :: rest)

/-- The loop of the open-tail branch of `versionRangeToVersionRange`:
walks the ranges carrying the in-progress `current` range, emitting one
Unaffected range at every non-empty `Introduced` boundary. -/
def openTailLoop : List report.VersionRange → cve5.VersionRange → List cve5.VersionRange
  | [], _ => []
  | vr :: rest, current =>
    if vr.Introduced ≠ "" then
      let c1 : cve5.VersionRange :=
        if current.Introduced = "" then { current with Introduced := versionZero } else current
      let c2 : cve5.VersionRange :=
        { c1 with Fixed := vr.Introduced, Status := StatusUnaffected, VersionType := typeSemver }
      c2 :: openTailLoop rest
        (if vr.Fixed ≠ "" then { Introduced := vr.Fixed } else {})
    else
      openTailLoop rest
        (if vr.Fixed ≠ "" then { current with Introduced := vr.Fixed } else current)

/-- The Range Normalizer: internal ranges to external ranges plus a default
status. -/
def versionRangeToVersionRange (versions : List report.VersionRange) :
    List cve5.VersionRange × String :=
  if versions = [] then
    ([], StatusAffected)
  else if lastFixed versions = "" then
    (openTailLoop versions {}, StatusAffected)
  else
    (versions.map (fun vr =>
      { Introduced := if vr.Introduced ≠ "" then vr.Introduced else versionZero,
        Fixed := vr.Fixed,
        Status := StatusAffected,
        VersionType := typeSemver }), StatusUnaffected)

/-- Follows the claim's words (not the source): for every range with a
non-empty introduced boundary emit one Unaffected external range from the
previous fixed bound (or `"0"` at the dawn of history) to that introduced
version, deferring the most recent fixed bound as the start of the next
window. -/
def claimOpenTail (prevFixed : String) : List report.VersionRange → List cve5.VersionRange
  | [] => []
  | vr :: rest =>
    if vr.Introduced ≠ "" then
      { Introduced := prevFixed, Fixed := vr.Introduced,
        Status := StatusUnaffected, VersionType := typeSemver } ::
        claimOpenTail (if vr.Fixed ≠ "" then vr.Fixed else versionZero) rest
    else
      claimOpenTail (if vr.Fixed ≠ "" then vr.Fixed else prevFixed) rest

/-- Bool test that `pat` is a leading segment of `l` (character lists). -/
def startsList : List Char → List Char → Bool
  | [], _ => true
  | _ :: _, [] => false
  | a :: as, b :: bs => a == b && startsList as bs

/-- Embeds Go `strings.HasSuffix s suffix`. -/
def goHasSuffix (s suffix : String) : Bool :=
  startsList suffix.toList.reverse s.toList.reverse

/-- Splits a character list at every occurrence of `sep`. -/
def splitAll (sep : Char) : List Char → List (List Char)
  | [] => [[]]
  | c :: rest =>
    match splitAll sep rest with
    | [] => [[]]
    | h :: t => if c = sep then [] :: h :: t else (c :: h) :: t

/-- Splits a character list at the first occurrence of `sep`, if any. -/
def splitFirst (sep : Char) : List Char → Option (List Char × List Char)
  | [] => none
  | c :: rest =>
    if c = sep then some ([], rest)
    else
      match splitFirst sep rest with
      | some (a, b) => some (c :: a, b)
      | none => none

/-- A numeric identifier of the semantic-version grammar: non-empty digits
with no leading zero. -/
def numId (l : List Char) : Bool :=
  !l.isEmpty && l.all (·.isDigit) && (l == ['0'] || l.head? != some '0')

/-- The version core `major(.minor(.patch)?)?` of the semantic-version
grammar. -/
def coreOk (l : List Char) : Bool :=
  match splitAll '.' l with
  | [a] => numId a
  | [a, b] => numId a && numId b
  | [a, b, c] => numId a && numId b && numId c
  | _ => false

def alnumHy (c : Char) : Bool := c.isAlpha || c.isDigit || c == '-'

/-- A prerelease identifier: non-empty, alphanumeric or hyphen, and with no
leading zero when purely numeric. -/
def preId (l : List Char) : Bool :=
  !l.isEmpty && l.all alnumHy &&
    (!(l.all (·.isDigit)) || l == ['0'] || l.head? != some '0')

/-- A build identifier: non-empty, alphanumeric or hyphen. -/
def buildId (l : List Char) : Bool := !l.isEmpty && l.all alnumHy

/-- Version core plus optional `-prerelease` part. -/
def semverMain (l : List Char) : Bool :=
  match splitFirst '-' l with
  | some (c, p) => coreOk c && (splitAll '.' p).all preId
  | none => coreOk l

/-- Version core, optional prerelease and optional `+build` part. -/
def semverBody (l : List Char) : Bool :=
  match splitFirst '+' l with
  | some (m, b) => semverMain m && (splitAll '.' b).all buildId
  | none => semverMain l

/-- Modelled from the spec: `version.IsValid` of package internal/version
(not under src) — a primitive is valid iff it parses under the
semantic-version grammar, with an optional leading `v`. -/
def version.IsValid (s : String) : Bool :=
  match s.toList with
  | [] => false
  | c :: l => (c == 'v' && semverBody l) || (c.isDigit && semverBody (c :: l))

/-- The split performed by the greedy groups of the Go regexp
`^>= (.+), < (.+)$`: the first group extends to the last occurrence of the
separator that leaves the second group non-empty. -/
def rexSplit (sep : List Char) : List Char → Option (List Char × List Char)
  | [] => none
  | c :: rest =>
    match rexSplit sep rest with
    | some (a, b) => some (c :: a, b)
    | none =>
      if startsList sep (c :: rest) && !((c :: rest).drop sep.length).isEmpty then
        some ([], (c :: rest).drop sep.length)
      else none

/-- Embeds `introducedFixedRE.FindStringSubmatch`: the anchored Go regexp
`^>= (.+), < (.+)$` with leftmost-first submatch semantics; `.` does not
match a newline. -/
def introducedFixedMatch (s : String) : Option (String × String) :=
  let l := s.toList
  if startsList (">= ".toList) l && l.all (fun c => c != '\n') then
    match rexSplit (", < ".toList) (l.drop 3) with
    | some (a, b) => if !a.isEmpty then some (a.asString, b.asString) else none
    | none => none
  else none

/-- Embeds `fixedRE.FindStringSubmatch`: the anchored Go regexp `^< (.+)$`;
`.` does not match a newline. -/
def fixedMatch (s : String) : Option String :=
  let l := s.toList
  if startsList ("< ".toList) l && l.all (fun c => c != '\n') && !(l.drop 2).isEmpty then
    some (l.drop 2).asString
  else none

/-- The recoverer's per-range conversion `toVersionRange`: pattern repair
first, then the direct-acceptance check. -/
def toVersionRange (cvr : cve5.VersionRange) (defaultStatus : String) :
    Option report.VersionRange :=
  match introducedFixedMatch cvr.Introduced with
  | some (a, b) => some { Introduced := a, Fixed := b }
  | none =>
    match fixedMatch cvr.Introduced with
    | some b => some { Fixed := b }
    | none =>
      if cvr.VersionType != typeSemver || cvr.LessThanOrEqual != "" ||
          !(version.IsValid cvr.Introduced) || !(version.IsValid cvr.Fixed) ||
          cvr.Status != StatusAffected || defaultStatus != StatusUnaffected then
        none
      else
        some { Introduced := if cvr.Introduced == "0" then "" else cvr.Introduced,
               Fixed := cvr.Fixed }

/-- The recoverer's fallback `toUnsupported`: renders the range as prose.
The middle branch prints `cvr.Fixed` exactly as the Go source does. -/
def toUnsupported (cvr : cve5.VersionRange) (defaultStatus : String) :
    report.UnsupportedVersion :=
  let ver :=
    if cvr.Fixed ≠ "" then
      cvr.Status ++ " from " ++ cvr.Introduced ++ " before " ++ cvr.Fixed
    else if cvr.LessThanOrEqual ≠ "" then
      cvr.Status ++ " from " ++ cvr.Introduced ++ " to " ++ cvr.Fixed
    else
      cvr.Status ++ " at " ++ cvr.Introduced
  let ver2 := if defaultStatus ≠ "" then ver ++ " (default: " ++ defaultStatus ++ ")" else ver
  { Version := ver2, Ty := "cve_version_range" }

/-- The Range Recoverer `convertVersions`: external ranges plus default
status to internal ranges plus unsupported-version notes. -/
def convertVersions (vrs : List cve5.VersionRange) (defaultStatus : String) :
    List report.VersionRange × List report.UnsupportedVersion :=
  match vrs with
  | [] => ([], [])
  | vr :: rest =>
    let r := convertVersions rest defaultStatus
    if vr.Introduced = "n/a" then r
    else
      match toVersionRange vr defaultStatus with
      | some v => (v :: r.1, r.2)
      | none => (r.1, toUnsupported vr defaultStatus :: r.2)

structure cve5.ProgramRoutine where
  Name : String := ""
deriving DecidableEq

/-- One affected-product entry of the external schema. -/
structure cve5.Affected where
  Vendor : String := ""
  Product : String := ""
  CollectionURL : String := ""
  PackageName : String := ""
  Versions : List cve5.VersionRange := []
  DefaultStatus : String := ""
  Platforms : List String := []
  ProgramRoutines : List cve5.ProgramRoutine := []
deriving DecidableEq

/-- The `isSet` closure of `affectedToModule`: set and not the `"n/a"`
sentinel. -/
def isSet (s : String) : Bool := s != "" && s != "n/a"

/-- The package-path resolution of `affectedToModule`: the switch over
packageName/product/vendor/module hint and the trailing-suffix collapse.
The subsequent standard-library module rewrite reads but never changes the
package path. -/
def resolvePackagePath (a : cve5.Affected) (modulePath : String) : String :=
  let pkgPath :=
    if isSet a.PackageName then a.PackageName
    else if isSet a.Product then a.Product
    else if isSet a.Vendor then a.Vendor
    else modulePath
  if goHasSuffix modulePath pkgPath then modulePath else pkgPath

structure cve5.ProviderMetadata where
  OrgID : String := ""
deriving DecidableEq

structure cve5.Description where
  Lang : String := ""
  Value : String := ""
deriving DecidableEq

structure cve5.ProblemTypeDescription where
  Lang : String := ""
  Description : String := ""
deriving DecidableEq

structure cve5.ProblemType where
  Descriptions : List cve5.ProblemTypeDescription := []
deriving DecidableEq

structure cve5.Reference where
  URL : String := ""
deriving DecidableEq

structure cve5.Credit where
  Lang : String := ""
  Value : String := ""
deriving DecidableEq

structure cve5.CNAPublishedContainer where
  ProviderMetadata : cve5.ProviderMetadata := {}
  Title : String := ""
  Descriptions : List cve5.Description := []
  ProblemTypes : List cve5.ProblemType := []
  Affected : List cve5.Affected := []
  References : List cve5.Reference := []
  Credits : List cve5.Credit := []
deriving DecidableEq

structure cve5.Metadata where
  ID : String := ""
deriving DecidableEq

structure cve5.Containers where
  CNAContainer : cve5.CNAPublishedContainer := {}
deriving DecidableEq

structure cve5.CVERecord where
  DataType : String := ""
  DataVersion : String := ""
  Metadata : cve5.Metadata := {}
  Containers : cve5.Containers := {}
deriving DecidableEq

/-- The `cve_metadata` section of a report (Go `*report.CVEMeta`). -/
structure report.CVEMeta where
  ID : String := ""
  CWE : String := ""
  Description : String := ""
  References : List String := []
deriving DecidableEq

structure report.Reference where
  URL : String := ""
deriving DecidableEq

structure report.Package where
  Package : String := ""
  Symbols : List String := []
  GOOS : List String := []
deriving DecidableEq

structure report.Module where
  Module : String := ""
  Versions : List report.VersionRange := []
  UnsupportedVersions : List report.UnsupportedVersion := []
  Packages : List report.Package := []
deriving DecidableEq

/-- An internal vulnerability report (the fields `FromReport` consumes). -/
structure report.Report where
  ID : String := ""
  Summary : String := ""
  Description : String := ""
  CVEMetadata : Option report.CVEMeta := none
  Modules : List report.Module := []
  References : List report.Reference := []
  Credits : List String := []
deriving DecidableEq

def GoOrgUUID : String := "1bb62c36-49e3-4200-9d77-64a1400537cc"

/-- Modelled from the spec: `report.RemoveNewlines` (not under src) — the
title is the summary with embedded newlines stripped. -/
def report.RemoveNewlines (s : String) : String :=
  (s.toList.map fun c => if c = '\n' then ' ' else c).asString

/-- Modelled from the spec: `report.Vendor` (not under src) — the vendor
identity carried by an affected entry, derived from the module path. -/
def report.Vendor (modulePath : String) : String := modulePath

/-- Modelled from the spec: `report.GoAdvisory` (not under src) — the
synthesized advisory URL for a report identifier. -/
def report.GoAdvisory (id : String) : String := "https://pkg.go.dev/vuln/" ++ id

/-- Modelled from the spec: `Package.AllSymbols` (not under src) — the
flattened list of affected symbol names of a package. -/
def report.Package.AllSymbols (p : report.Package) : List String := p.Symbols

/-- Modelled from the spec: `derrors.Wrap` (not under src) — errors are
surfaced wrapped with the operation and the report identifier. -/
def wrapFromReport (id msg : String) : String :=
  "FromReport(\"" ++ id ++ "\"): " ++ msg

/-- The module/package loop of `FromReport`: one affected entry per
module × package pair. -/
def modulesToAffected : List report.Module → List cve5.Affected
  | [] => []
  | m :: rest =>
    (m.Packages.map fun p =>
      { Vendor := report.Vendor m.Module,
        Product := p.Package,
        CollectionURL := "https://pkg.go.dev",
        PackageName := p.Package,
        Versions := (versionRangeToVersionRange m.Versions).1,
        DefaultStatus := (versionRangeToVersionRange m.Versions).2,
        Platforms := p.GOOS,
        ProgramRoutines := p.AllSymbols.map (fun s => { Name := s }) })
      ++ modulesToAffected rest

/-- The Record Assembler `FromReport`: builds one CVE 5.0 record from a
report, or fails on missing required metadata. -/
def FromReport (r : report.Report) : Except String cve5.CVERecord :=
  match r.CVEMetadata with
  | none => Except.error (wrapFromReport r.ID "report missing cve_metadata section")
  | some meta =>
    if meta.ID = "" then
      Except.error (wrapFromReport r.ID "report missing CVE ID")
    else
      let description := if meta.Description = "" then r.Description else meta.Description
      if meta.CWE = "" then
        Except.error (wrapFromReport r.ID "report missing CWE")
      else
        let c : cve5.CNAPublishedContainer :=
          { ProviderMetadata := { OrgID := GoOrgUUID },
            Title := report.RemoveNewlines r.Summary,
            Descriptions := [{ Lang := "en", Value := report.RemoveNewlines description }],
            ProblemTypes := [{ Descriptions := [{ Lang := "en", Description := meta.CWE }] }],
            Affected := modulesToAffected r.Modules,
            References := r.References.map (fun ref => { URL := ref.URL })
              ++ [{ URL := report.GoAdvisory r.ID }]
              ++ meta.References.map (fun ref => { URL := ref }),
            Credits := r.Credits.map (fun cr => { Lang := "en", Value := cr }) }
        Except.ok
          { DataType := "CVE_RECORD",
            DataVersion := "5.0",
            Metadata := { ID := meta.ID },
            Containers := { CNAContainer := c } }

theorem openTailLoop_eq_claimOpenTail (vrs : List report.VersionRange) (x : String) :
    openTailLoop vrs { Introduced := x } =
      claimOpenTail (if x = "" then versionZero else x) vrs := by
  induction vrs generalizing x with
  | nil => simp [openTailLoop, claimOpenTail]
  | cons vr rest ih =>
    by_cases hi : vr.Introduced = ""
    · by_cases hf : vr.Fixed = ""
      · simp [openTailLoop, claimOpenTail, hi, hf, ih]
      · simpa [openTailLoop, claimOpenTail, hi, hf] using ih vr.Fixed
    · by_cases hf : vr.Fixed = ""
      · have h0 : (versionZero = "") = False := by simp [versionZero]
        by_cases hx : x = "" <;>
          simp [openTailLoop, claimOpenTail, hi, hf, hx, ih, h0, versionZero]
      · have hrec := ih vr.Fixed
        by_cases hx : x = "" <;>
          simp [openTailLoop, claimOpenTail, hi, hf, hx, hrec]

theorem versionRangeToVersionRange_snd (vrs : List report.VersionRange) :
    (versionRangeToVersionRange vrs).2 =
      if vrs = [] ∨ lastFixed vrs = "" then StatusAffected else StatusUnaffected := by
  unfold versionRangeToVersionRange
  by_cases h1 : vrs = [] <;> by_cases h2 : lastFixed vrs = "" <;> simp [h1, h2]

/-- C2: when the last internal range has an empty fixed bound, the
Normalizer returns `DefaultStatus = Affected` and emits one Unaffected
external range per introduced boundary, spanning from the previous fixed
bound (or the token `"0"` at the dawn of history) to that introduced
version. -/
theorem claim_C2_open_tail_encoding (vrs : List report.VersionRange)
    (h1 : vrs ≠ []) (h2 : lastFixed vrs = "") :
    versionRangeToVersionRange vrs = (claimOpenTail versionZero vrs, StatusAffected) := by
  unfold versionRangeToVersionRange
  rw [if_neg h1, if_pos h2]
  simpa using openTailLoop_eq_claimOpenTail vrs ""

/-- C2 witness: on the input `[{introduced: "", fixed: "1.2.0"},
{introduced: "1.3.0", fixed: ""}]` the Normalizer returns default status
Affected and exactly one Unaffected range `{introduced: "1.2.0",
fixed: "1.3.0"}`. -/
theorem claim_C2_open_tail_encoding_witness :
    versionRangeToVersionRange [⟨"", "1.2.0"⟩, ⟨"1.3.0", ""⟩] =
      ([⟨"1.2.0", "1.3.0", "", StatusUnaffected, typeSemver⟩], StatusAffected) := by
  rw [claim_C2_open_tail_encoding [⟨"", "1.2.0"⟩, ⟨"1.3.0", ""⟩] (by decide) (by decide)]
  decide

/-- C3: the default status returned by the Normalizer is Affected iff the
input is empty or its final range has an empty fixed field, and Unaffected
otherwise; the empty input yields `(nil, Affected)`. -/
theorem claim_C3_default_status (vrs : List report.VersionRange) :
    ((versionRangeToVersionRange vrs).2 = StatusAffected ↔ (vrs = [] ∨ lastFixed vrs = ""))
    ∧ ((versionRangeToVersionRange vrs).2 = StatusUnaffected ↔ ¬(vrs = [] ∨ lastFixed vrs = ""))
    ∧ versionRangeToVersionRange [] = ([], StatusAffected) := by
  have key := versionRangeToVersionRange_snd vrs
  have hne : StatusAffected ≠ StatusUnaffected := by decide
  refine ⟨?_, ?_, by decide⟩ <;> rw [key] <;>
    by_cases h : vrs = [] ∨ lastFixed vrs = "" <;> simp [h, hne, Ne.symm hne]

/-- C3 witness: a singleton with open tail gets default status Affected and
a singleton with a closed tail gets default status Unaffected. -/
theorem claim_C3_default_status_witness :
    (versionRangeToVersionRange [⟨"1.0.0", ""⟩]).2 = StatusAffected
    ∧ (versionRangeToVersionRange [⟨"", "1.0.0"⟩]).2 = StatusUnaffected :=
  ⟨(claim_C3_default_status _).1.mpr (Or.inr rfl),
   (claim_C3_default_status _).2.1.mpr (by decide)⟩

theorem isValid_toList (s : String) (h : version.IsValid s = true) :
    ∃ c l, s.toList = c :: l ∧ (c = 'v' ∨ c.isDigit = true) := by
  unfold version.IsValid at h
  rcases hs : s.toList with _ | ⟨c, l⟩
  · rw [hs] at h
    simp at h
  · rw [hs] at h
    simp only [Bool.or_eq_true, Bool.and_eq_true, beq_iff_eq] at h
    rcases h with ⟨hc, _⟩ | ⟨hc, _⟩
    · exact ⟨c, l, rfl, Or.inl hc⟩
    · exact ⟨c, l, rfl, Or.inr hc⟩

theorem isValid_no_repair (s : String) (h : version.IsValid s = true) :
    introducedFixedMatch s = none ∧ fixedMatch s = none ∧ s ≠ "n/a" ∧ s ≠ "" := by
  obtain ⟨c, l, hs, hc⟩ := isValid_toList s h
  have hhead : ∀ d : Char, d.isDigit = false → d ≠ 'v' → (d == c) = false := by
    intro d hd hv
    rcases hc with rfl | hdig
    · exact beq_eq_false_iff_ne.mpr hv
    · refine beq_eq_false_iff_ne.mpr ?_
      intro hdc
      rw [hdc, hdig] at hd
      exact absurd hd (by decide)
  have e1 : (">= ".toList) = ['>', '=', ' '] := rfl
  have e2 : ("< ".toList) = ['<', ' '] := rfl
  have hs' : s.data = c :: l := hs
  refine ⟨?_, ?_, ?_, ?_⟩
  · simp [introducedFixedMatch, hs, hs', e1, startsList, hhead '>' (by decide) (by decide)]
  · simp [fixedMatch, hs, hs', e2, startsList, hhead '<' (by decide) (by decide)]
  · intro hna
    rw [hna] at hs
    have e3 : ("n/a".toList) = ['n', '/', 'a'] := rfl
    rw [e3] at hs
    injection hs with h1 _
    rcases hc with rfl | hdig
    · exact absurd h1 (by decide)
    · rw [← h1] at hdig
      exact absurd hdig (by decide)
  · intro he
    rw [he] at hs
    have e4 : ("".toList) = ([] : List Char) := rfl
    rw [e4] at hs
    exact List.noConfusion hs

theorem lastFixed_mem : ∀ (vrs : List report.VersionRange), vrs ≠ [] →
    ∃ vr ∈ vrs, lastFixed vrs = vr.Fixed
  | [], h => absurd rfl h
  | [vr], _ => ⟨vr, by simp, rfl⟩
  | a :: b :: rest, _ => by
    obtain ⟨vr, hmem, heq⟩ := lastFixed_mem (b :: rest) (by simp)
    exact ⟨vr, List.mem_cons_of_mem a hmem, heq⟩

theorem toVersionRange_none_of_lte (cvr : cve5.VersionRange) (ds : String)
    (h1 : introducedFixedMatch cvr.Introduced = none)
    (h2 : fixedMatch cvr.Introduced = none)
    (h3 : cvr.LessThanOrEqual ≠ "") :
    toVersionRange cvr ds = none := by
  unfold toVersionRange
  rw [h1, h2]
  have hb : (cvr.LessThanOrEqual != "") = true := bne_iff_ne.mpr h3
  simp [hb]

/-- C4: an external range matching neither repair pattern converts directly
iff versionType is the semver tag, lessThanOrEqual is unset, introduced and
fixed are valid version primitives, its status is Affected and the default
status is Unaffected; the result keeps introduced (mapped to empty when
`"0"`) and fixed. -/
theorem claim_C4_direct_acceptance (cvr : cve5.VersionRange) (ds : String)
    (h1 : introducedFixedMatch cvr.Introduced = none)
    (h2 : fixedMatch cvr.Introduced = none) :
    toVersionRange cvr ds =
      if cvr.VersionType = typeSemver ∧ cvr.LessThanOrEqual = ""
          ∧ version.IsValid cvr.Introduced = true ∧ version.IsValid cvr.Fixed = true
          ∧ cvr.Status = StatusAffected ∧ ds = StatusUnaffected then
        some { Introduced := if cvr.Introduced = "0" then "" else cvr.Introduced,
               Fixed := cvr.Fixed }
      else none := by
  unfold toVersionRange
  rw [h1, h2]
  cases hb3 : version.IsValid cvr.Introduced <;>
  cases hb4 : version.IsValid cvr.Fixed <;>
  by_cases b1 : cvr.VersionType = typeSemver <;>
  by_cases b2 : cvr.LessThanOrEqual = "" <;>
  by_cases b5 : cvr.Status = StatusAffected <;>
  by_cases b6 : ds = StatusUnaffected <;>
  simp [hb3, hb4, b1, b2, b5, b6, bne_iff_ne, beq_iff_eq]

/-- C4 witness: concrete instances of direct acceptance — a plain accepted
range, the `"0"`-to-empty mapping, and a rejection when the default status
is Affected. -/
theorem claim_C4_direct_acceptance_witness :
    toVersionRange ⟨"1.0.0", "2.0.0", "", StatusAffected, typeSemver⟩ StatusUnaffected =
      some ⟨"1.0.0", "2.0.0"⟩
    ∧ toVersionRange ⟨"0", "2.0.0", "", StatusAffected, typeSemver⟩ StatusUnaffected =
      some ⟨"", "2.0.0"⟩
    ∧ toVersionRange ⟨"1.0.0", "2.0.0", "", StatusAffected, typeSemver⟩ StatusAffected =
      none := by
  refine ⟨?_, ?_, ?_⟩ <;>
  · rw [claim_C4_direct_acceptance _ _ (by decide) (by decide)]
    decide

/-- C5: pattern repair comes first and ignores status, versionType,
lessThanOrEqual and default status; `">= A, < B"` yields
`{introduced: A, fixed: B}`, else `"< B"` yields `{fixed: B}`. -/
theorem claim_C5_pattern_repair (cvr : cve5.VersionRange) (ds : String) :
    (∀ a b, introducedFixedMatch cvr.Introduced = some (a, b) →
      toVersionRange cvr ds = some ⟨a, b⟩)
    ∧ (∀ b, introducedFixedMatch cvr.Introduced = none →
      fixedMatch cvr.Introduced = some b →
      toVersionRange cvr ds = some ⟨"", b⟩) := by
  constructor
  · intro a b h
    unfold toVersionRange
    rw [h]
  · intro b hn h
    unfold toVersionRange
    rw [hn, h]

/-- C5 witness: `introduced = ">= 1.0.0, < 2.0.0"` yields
`{introduced: "1.0.0", fixed: "2.0.0"}` and `introduced = "< 3.0.0"` yields
`{fixed: "3.0.0"}`, with all other fields arbitrary. -/
theorem claim_C5_pattern_repair_witness :
    toVersionRange ⟨">= 1.0.0, < 2.0.0", "", "9.9.9", "bogus", "git"⟩ StatusAffected =
      some ⟨"1.0.0", "2.0.0"⟩
    ∧ toVersionRange ⟨"< 3.0.0", "", "9.9.9", "bogus", "git"⟩ StatusAffected =
      some ⟨"", "3.0.0"⟩ :=
  ⟨(claim_C5_pattern_repair ⟨">= 1.0.0, < 2.0.0", "", "9.9.9", "bogus", "git"⟩
      StatusAffected).1 "1.0.0" "2.0.0" (by decide),
   (claim_C5_pattern_repair ⟨"< 3.0.0", "", "9.9.9", "bogus", "git"⟩
      StatusAffected).2 "3.0.0" (by decide) (by decide)⟩

/-- C6 counterexample: an external range with `lessThanOrEqual` set whose
introduced field matches repair pattern A is converted to an internal range,
so it does not appear as an UnsupportedVersionNote — the note list is
empty. -/
theorem claim_C6_counterexample :
    (⟨">= 1.0.0, < 2.0.0", "", "1.5.0", StatusAffected, typeSemver⟩ :
        cve5.VersionRange).LessThanOrEqual ≠ ""
    ∧ convertVersions [⟨">= 1.0.0, < 2.0.0", "", "1.5.0", StatusAffected, typeSemver⟩]
        StatusUnaffected = ([⟨"1.0.0", "2.0.0"⟩], []) := by
  decide

/-- C6 amended: the recoverer never drops an entry — converted ranges plus
notes number the inputs minus the `"n/a"` skips — and an entry with
`lessThanOrEqual` set that is not skipped as `"n/a"` and matches neither
repair pattern appears as an UnsupportedVersionNote. -/
theorem claim_C6_degrade_not_drop (vrs : List cve5.VersionRange) (ds : String) :
    (convertVersions vrs ds).1.length + (convertVersions vrs ds).2.length =
      vrs.length - (vrs.filter (fun vr => vr.Introduced == "n/a")).length
    ∧ ∀ vr ∈ vrs, vr.LessThanOrEqual ≠ "" → vr.Introduced ≠ "n/a" →
        introducedFixedMatch vr.Introduced = none → fixedMatch vr.Introduced = none →
        toUnsupported vr ds ∈ (convertVersions vrs ds).2 := by
  induction vrs with
  | nil => simp [convertVersions]
  | cons vr rest ih =>
    obtain ⟨ihc, ihm⟩ := ih
    have hk : (rest.filter (fun vr => vr.Introduced == "n/a")).length ≤ rest.length :=
      rest.length_filter_le _
    by_cases hna : vr.Introduced = "n/a"
    · refine ⟨?_, ?_⟩
      · simp only [convertVersions, if_pos hna, List.filter_cons, List.length_cons]
        simp [hna]
        omega
      · intro vr' hmem hlte hna' hm1 hm2
        rcases List.mem_cons.mp hmem with rfl | hmem'
        · exact absurd hna hna'
        · simpa [convertVersions, hna] using ihm vr' hmem' hlte hna' hm1 hm2
    · refine ⟨?_, ?_⟩
      · cases htv : toVersionRange vr ds <;>
          simp only [convertVersions, if_neg hna, htv, List.filter_cons, List.length_cons] <;>
          simp only [beq_iff_eq, if_neg hna, List.length_cons] <;>
          omega
      · intro vr' hmem hlte hna' hm1 hm2
        rcases List.mem_cons.mp hmem with rfl | hmem'
        · have hnone := toVersionRange_none_of_lte vr' ds hm1 hm2 hlte
          simp [convertVersions, hna, hnone]
        · have hrec := ihm vr' hmem' hlte hna' hm1 hm2
          cases htv : toVersionRange vr ds <;>
            simp only [convertVersions, if_neg hna, htv] <;>
            simp [hrec]

/-- C6 witness: an entry with an inclusive upper bound, an introduced field
that is not `"n/a"` and no matching repair pattern becomes a note, and the
counts add up. -/
theorem claim_C6_degrade_not_drop_witness :
    (convertVersions [⟨"1.0.0", "", "2.0.0", StatusAffected, typeSemver⟩] "").1.length
      + (convertVersions [⟨"1.0.0", "", "2.0.0", StatusAffected, typeSemver⟩] "").2.length
      = [(⟨"1.0.0", "", "2.0.0", StatusAffected, typeSemver⟩ : cve5.VersionRange)].length
        - ([(⟨"1.0.0", "", "2.0.0", StatusAffected, typeSemver⟩ : cve5.VersionRange)].filter
            (fun vr => vr.Introduced == "n/a")).length
    ∧ toUnsupported ⟨"1.0.0", "", "2.0.0", StatusAffected, typeSemver⟩ "" ∈
        (convertVersions [⟨"1.0.0", "", "2.0.0", StatusAffected, typeSemver⟩] "").2 :=
  ⟨(claim_C6_degrade_not_drop [⟨"1.0.0", "", "2.0.0", StatusAffected, typeSemver⟩] "").1,
   (claim_C6_degrade_not_drop [⟨"1.0.0", "", "2.0.0", StatusAffected, typeSemver⟩] "").2
     ⟨"1.0.0", "", "2.0.0", StatusAffected, typeSemver⟩
     (by decide) (by decide) (by decide) (by decide) (by decide)⟩

/-- C7, code evaluated at the failing input: for a range whose only upper
bound is `lessThanOrEqual`, `toUnsupported` prints `cvr.Fixed` — necessarily
empty in that branch — where the claim (and clearly the intent of the
branch condition) expects `cvr.LessThanOrEqual`, leaving a dangling
`"to "`. -/
theorem claim_C7_lte_note_text :
    toUnsupported ⟨"1.0.0", "", "2.0.0", StatusAffected, typeSemver⟩ "" =
      ⟨"affected from 1.0.0 to ", "cve_version_range"⟩
    ∧ toUnsupported ⟨"1.0.0", "", "2.0.0", StatusAffected, typeSemver⟩ "" ≠
      ⟨"affected from 1.0.0 to 2.0.0", "cve_version_range"⟩ := by
  decide

theorem toVersionRange_direct (i f : String) (hi : version.IsValid i = true)
    (hf : version.IsValid f = true) :
    toVersionRange ⟨i, f, "", StatusAffected, typeSemver⟩ StatusUnaffected =
      some ⟨if i = "0" then "" else i, f⟩ := by
  obtain ⟨hm1, hm2, _, _⟩ := isValid_no_repair i hi
  simp only [toVersionRange, hm1, hm2]
  simp [hi, hf, beq_iff_eq]

theorem map_head_convert (vi vf : String)
    (h1 : vi = "" ∨ (version.IsValid vi = true ∧ vi ≠ "0"))
    (h2 : version.IsValid vf = true) (rest' : List cve5.VersionRange) :
    convertVersions
      (({ Introduced := if vi ≠ "" then vi else versionZero,
          Fixed := vf,
          Status := StatusAffected,
          VersionType := typeSemver } : cve5.VersionRange) :: rest')
      StatusUnaffected =
      (⟨vi, vf⟩ :: (convertVersions rest' StatusUnaffected).1,
        (convertVersions rest' StatusUnaffected).2) := by
  rcases h1 with rfl | ⟨hval, h0⟩
  · have hm := toVersionRange_direct versionZero vf (by decide) h2
    simp [versionZero] at hm
    simp [convertVersions, versionZero, hm]
  · have hne : vi ≠ "" := (isValid_no_repair vi hval).2.2.2
    have hna : vi ≠ "n/a" := (isValid_no_repair vi hval).2.2.1
    have hm := toVersionRange_direct vi vf hval h2
    simp [h0] at hm
    simp [convertVersions, hne, hna, hm]

theorem convertVersions_map_inv (vrs : List report.VersionRange)
    (hgood : ∀ vr ∈ vrs,
      (vr.Introduced = "" ∨ (version.IsValid vr.Introduced = true ∧ vr.Introduced ≠ "0"))
      ∧ version.IsValid vr.Fixed = true) :
    convertVersions (vrs.map (fun vr =>
      { Introduced := if vr.Introduced ≠ "" then vr.Introduced else versionZero,
        Fixed := vr.Fixed,
        Status := StatusAffected,
        VersionType := typeSemver }))
      StatusUnaffected = (vrs, []) := by
  induction vrs with
  | nil => simp [convertVersions]
  | cons vr rest ih =>
    have hhead := hgood vr (List.mem_cons_self vr rest)
    have ihr := ih (fun v hv => hgood v (List.mem_cons_of_mem vr hv))
    cases vr with
    | mk vi vf =>
      obtain ⟨h1, h2⟩ := hhead
      simp only [List.map_cons]
      rw [map_head_convert vi vf h1 h2, ihr]

/-- C1 counterexample: the sequence `[{introduced: "0", fixed: "1.0.0"}]`
consists of valid semantic versions and ends in a non-empty fixed bound, yet
the Recoverer applied to the Normalizer's output returns
`[{introduced: "", fixed: "1.0.0"}]`, not the original sequence: the
round trip maps the valid version token `"0"` to the empty string. -/
theorem claim_C1_round_trip_counterexample :
    version.IsValid "0" = true ∧ version.IsValid "1.0.0" = true
    ∧ lastFixed [⟨"0", "1.0.0"⟩] ≠ ""
    ∧ convertVersions (versionRangeToVersionRange [⟨"0", "1.0.0"⟩]).1
        (versionRangeToVersionRange [⟨"0", "1.0.0"⟩]).2
      ≠ ([⟨"0", "1.0.0"⟩], [])
    ∧ convertVersions (versionRangeToVersionRange [⟨"0", "1.0.0"⟩]).1
        (versionRangeToVersionRange [⟨"0", "1.0.0"⟩]).2
      = ([⟨"", "1.0.0"⟩], []) := by
  decide

/-- C1 amended: for every non-empty sequence of internal ranges in which
each fixed bound is a valid semantic version and each introduced bound is
either empty or a valid semantic version other than the token `"0"`,
running the Range Recoverer on the output of the Range Normalizer yields
exactly the original sequence and an empty list of
UnsupportedVersionNotes. -/
theorem claim_C1_round_trip (vrs : List report.VersionRange) (hne : vrs ≠ [])
    (hgood : ∀ vr ∈ vrs,
      (vr.Introduced = "" ∨ (version.IsValid vr.Introduced = true ∧ vr.Introduced ≠ "0"))
      ∧ version.IsValid vr.Fixed = true) :
    convertVersions (versionRangeToVersionRange vrs).1 (versionRangeToVersionRange vrs).2
      = (vrs, []) := by
  have hlf : lastFixed vrs ≠ "" := by
    obtain ⟨vr, hmem, heq⟩ := lastFixed_mem vrs hne
    rw [heq]
    exact (isValid_no_repair _ (hgood vr hmem).2).2.2.2
  have hvv : versionRangeToVersionRange vrs =
      (vrs.map (fun vr =>
        { Introduced := if vr.Introduced ≠ "" then vr.Introduced else versionZero,
          Fixed := vr.Fixed,
          Status := StatusAffected,
          VersionType := typeSemver }), StatusUnaffected) := by
    unfold versionRangeToVersionRange
    rw [if_neg hne, if_neg hlf]
  rw [hvv]
  exact convertVersions_map_inv vrs hgood

/-- C1 witness: the round trip is the identity on
`[{introduced: "", fixed: "1.0.0"}, {introduced: "1.5.0", fixed: "2.0.0"}]`
and produces no notes. -/
theorem claim_C1_round_trip_witness :
    convertVersions (versionRangeToVersionRange [⟨"", "1.0.0"⟩, ⟨"1.5.0", "2.0.0"⟩]).1
        (versionRangeToVersionRange [⟨"", "1.0.0"⟩, ⟨"1.5.0", "2.0.0"⟩]).2
      = ([⟨"", "1.0.0"⟩, ⟨"1.5.0", "2.0.0"⟩], []) :=
  claim_C1_round_trip [⟨"", "1.0.0"⟩, ⟨"1.5.0", "2.0.0"⟩] (by decide) (by decide)

theorem startsList_refl : ∀ l : List Char, startsList l l = true
  | [] => rfl
  | c :: rest => by simp [startsList, startsList_refl rest]

theorem goHasSuffix_refl (m : String) : goHasSuffix m m = true :=
  startsList_refl m.toList.reverse

/-- C8: path resolution prefers packageName when set and not the `"n/a"`
sentinel, else product, else vendor, else the module path hint; whenever the
chosen path is a trailing suffix of the module path hint it collapses to the
hint, and when packageName, product and vendor are all unset the result is
exactly the hint. -/
theorem claim_C8_path_resolution (a : cve5.Affected) (m : String) :
    (isSet a.PackageName = true → goHasSuffix m a.PackageName = false →
      resolvePackagePath a m = a.PackageName)
    ∧ (isSet a.PackageName = true → goHasSuffix m a.PackageName = true →
      resolvePackagePath a m = m)
    ∧ (isSet a.PackageName = false → isSet a.Product = true →
      goHasSuffix m a.Product = false → resolvePackagePath a m = a.Product)
    ∧ (isSet a.PackageName = false → isSet a.Product = true →
      goHasSuffix m a.Product = true → resolvePackagePath a m = m)
    ∧ (isSet a.PackageName = false → isSet a.Product = false → isSet a.Vendor = true →
      goHasSuffix m a.Vendor = false → resolvePackagePath a m = a.Vendor)
    ∧ (isSet a.PackageName = false → isSet a.Product = false → isSet a.Vendor = true →
      goHasSuffix m a.Vendor = true → resolvePackagePath a m = m)
    ∧ (isSet a.PackageName = false → isSet a.Product = false → isSet a.Vendor = false →
      resolvePackagePath a m = m) := by
  refine ⟨?_, ?_, ?_, ?_, ?_, ?_, ?_⟩ <;> intros <;>
    simp_all [resolvePackagePath, goHasSuffix_refl]

/-- C8 witness: resolving package `"golang.org/x/foo/bar"` against the
identical module hint yields the hint, and an entry with empty packageName,
product and vendor yields exactly the hint. -/
theorem claim_C8_path_resolution_witness :
    resolvePackagePath { PackageName := "golang.org/x/foo/bar" } "golang.org/x/foo/bar" =
      "golang.org/x/foo/bar"
    ∧ resolvePackagePath {} "example.com/mod" = "example.com/mod" :=
  ⟨(claim_C8_path_resolution { PackageName := "golang.org/x/foo/bar" }
      "golang.org/x/foo/bar").2.1 (by decide) (by decide),
   (claim_C8_path_resolution {} "example.com/mod").2.2.2.2.2.2
      (by decide) (by decide) (by decide)⟩

/-- C9: `FromReport` returns an error — and no record — exactly when the
CVE metadata section is absent, the CVE identifier is empty, or the CWE is
empty, and every such error is wrapped with the report identifier. -/
theorem claim_C9_from_report_errors (r : report.Report) :
    ((∃ e, FromReport r = Except.error e) ↔
      (r.CVEMetadata = none ∨ ∃ m, r.CVEMetadata = some m ∧ (m.ID = "" ∨ m.CWE = "")))
    ∧ (∀ e, FromReport r = Except.error e →
        ∃ msg, e = wrapFromReport r.ID msg) := by
  cases hmeta : r.CVEMetadata with
  | none =>
    have hfr : FromReport r =
        Except.error (wrapFromReport r.ID "report missing cve_metadata section") := by
      simp [FromReport, hmeta]
    refine ⟨⟨fun _ => Or.inl rfl, fun _ => ⟨_, hfr⟩⟩, ?_⟩
    intro e he
    rw [hfr] at he
    injection he with h'
    exact ⟨_, h'.symm⟩
  | some meta =>
    by_cases hid : meta.ID = ""
    · have hfr : FromReport r =
          Except.error (wrapFromReport r.ID "report missing CVE ID") := by
        simp [FromReport, hmeta, hid]
      refine ⟨⟨fun _ => Or.inr ⟨meta, rfl, Or.inl hid⟩, fun _ => ⟨_, hfr⟩⟩, ?_⟩
      intro e he
      rw [hfr] at he
      injection he with h'
      exact ⟨_, h'.symm⟩
    · by_cases hcwe : meta.CWE = ""
      · have hfr : FromReport r =
            Except.error (wrapFromReport r.ID "report missing CWE") := by
          simp [FromReport, hmeta, hid, hcwe]
        refine ⟨⟨fun _ => Or.inr ⟨meta, rfl, Or.inr hcwe⟩, fun _ => ⟨_, hfr⟩⟩, ?_⟩
        intro e he
        rw [hfr] at he
        injection he with h'
        exact ⟨_, h'.symm⟩
      · have hfr : ∀ e, FromReport r ≠ Except.error e := by
          intro e he
          simp [FromReport, hmeta, hid, hcwe] at he
        refine ⟨⟨?_, ?_⟩, ?_⟩
        · rintro ⟨e, he⟩
          exact absurd he (hfr e)
        · rintro (h | ⟨m, hm, h⟩)
          · simp at h
          · injection hm with hmm
            rw [← hmm] at h
            rcases h with h | h
            · exact absurd h hid
            · exact absurd h hcwe
        · intro e he
          exact absurd he (hfr e)

/-- C9 witness: on a report with no `cve_metadata` section, `FromReport`
fails with an error wrapped with the report identifier. -/
theorem claim_C9_from_report_errors_witness :
    ∃ msg, FromReport { ID := "GO-2024-0001" } =
      Except.error (wrapFromReport "GO-2024-0001" msg) := by
  obtain ⟨e, he⟩ :=
    (claim_C9_from_report_errors { ID := "GO-2024-0001" }).1.mpr (Or.inl rfl)
  obtain ⟨msg, hm⟩ := (claim_C9_from_report_errors { ID := "GO-2024-0001" }).2 e he
  exact ⟨msg, by rw [he, hm]⟩

/-- C10: the singleton fully open range (introduced and fixed both empty)
normalizes to `(nil, Affected)`, the very output produced for the empty
input, so the two are indistinguishable after translation. -/
theorem claim_C10_fully_open_singleton :
    versionRangeToVersionRange [⟨"", ""⟩] = ([], StatusAffected)
    ∧ versionRangeToVersionRange [] = ([], StatusAffected) := by
  decide
